import Mathlib

/-!
Verification development for the `charamza/alaplaya` browser action-RPG
client.  The gameplay simulation core (player movement/physics, terrain
height sampling, axis-aligned collision volumes, the attack state machine
and the per-frame combat coordination) is shallowly embedded over ℚ:

* numbers are rationals (the source uses JS doubles; every constant in
  the core is a small decimal, exactly representable);
* `THREE.Vector3` becomes a record of three rationals;
* stateful classes become records plus explicit state-passing functions;
* `distanceTo cmp r` comparisons are embedded by comparing squared
  distances against `r^2` (equivalent for the nonnegative thresholds the
  code uses, and exact over ℚ, whereas `sqrt` is not rational);
* `THREE.Vector3.normalize` is not rational-valued in general, so the
  functions that consume a normalized direction take the normalizer as an
  explicit function argument (`unitDir`); concrete instantiations in the
  closed theorems below only apply it to vectors whose exact Euclidean
  normalization is rational and is supplied;
* wall-clock reads (`Date.now() / 1000`) become an explicit `now : ℚ`
  argument, one value per frame (the source reads the clock at most a few
  microseconds apart within one update);
* fields that only drive rendering (model rotation, animation cross-fades,
  vertex colors, shaders) have no effect on the simulation state and are
  not part of the embedded state.
-/

namespace Alaplaya

/-- Embeds `THREE.Vector3` restricted to the value content the simulation uses. -/
structure Vec3 where
  x : ℚ
  y : ℚ
  z : ℚ
deriving DecidableEq, Repr

def Vec3.sub (a b : Vec3) : Vec3 := ⟨a.x - b.x, a.y - b.y, a.z - b.z⟩

def Vec3.add (a b : Vec3) : Vec3 := ⟨a.x + b.x, a.y + b.y, a.z + b.z⟩

def Vec3.scale (c : ℚ) (v : Vec3) : Vec3 := ⟨c * v.x, c * v.y, c * v.z⟩

/-- Squared Euclidean length; `v.length() > 0` is embedded as `lengthSq v > 0`. -/
def Vec3.lengthSq (v : Vec3) : ℚ := v.x ^ 2 + v.y ^ 2 + v.z ^ 2

/-- Squared distance between two points; `a.distanceTo(b) ≤ r` is embedded as
`distSq a b ≤ r ^ 2` (equivalent for `0 ≤ r`). -/
def distSq (a b : Vec3) : ℚ := (a.x - b.x) ^ 2 + (a.y - b.y) ^ 2 + (a.z - b.z) ^ 2

/-! ### CollisionManager (src/systems/CollisionManager.ts) -/

/-- Embeds `CollisionBox` from CollisionManager.ts: center `position` and full
`size`; the optional mesh handle is render-only. -/
structure CollisionBox where
  position : Vec3
  size : Vec3
deriving DecidableEq, Repr

/-- Embeds `CollisionManager.getHeightAt`: highest top surface among boxes whose
footprint expanded by `playerRadius` contains `(x, z)` and whose top is at or
below `playerY` within a `0.1` tolerance; `0` when no box qualifies.  The
source's `for`-loop accumulating `maxHeight` from `0` becomes a fold. -/
def cmGetHeightAt (boxes : List CollisionBox) (x z playerRadius playerY : ℚ) : ℚ :=
  boxes.foldl (fun maxHeight box =>
    let boxMinX := box.position.x - box.size.x / 2 - playerRadius
    let boxMaxX := box.position.x + box.size.x / 2 + playerRadius
    let boxMinZ := box.position.z - box.size.z / 2 - playerRadius
    let boxMaxZ := box.position.z + box.size.z / 2 + playerRadius
    if x ≥ boxMinX ∧ x ≤ boxMaxX ∧ z ≥ boxMinZ ∧ z ≤ boxMaxZ then
      let boxTopHeight := box.position.y + box.size.y / 2
      if playerY ≥ boxTopHeight - 1/10 then max maxHeight boxTopHeight
      else maxHeight
    else maxHeight) 0

/-- Embeds `CollisionManager.checkHorizontalCollision`: 3-axis AABB overlap of the
player's capsule-as-box against any registered box (the source's early
`return true` inside the loop becomes `List.any`). -/
def checkHorizontalCollision (boxes : List CollisionBox)
    (newX newZ playerY playerRadius playerHeight : ℚ) : Bool :=
  boxes.any (fun box =>
    let boxMinX := box.position.x - box.size.x / 2
    let boxMaxX := box.position.x + box.size.x / 2
    let boxMinZ := box.position.z - box.size.z / 2
    let boxMaxZ := box.position.z + box.size.z / 2
    let boxMinY := box.position.y - box.size.y / 2
    let boxMaxY := box.position.y + box.size.y / 2
    let playerMinX := newX - playerRadius
    let playerMaxX := newX + playerRadius
    let playerMinZ := newZ - playerRadius
    let playerMaxZ := newZ + playerRadius
    let playerMinY := playerY
    let playerMaxY := playerY + playerHeight
    decide (playerMinX < boxMaxX ∧ playerMaxX > boxMinX ∧
            playerMinZ < boxMaxZ ∧ playerMaxZ > boxMinZ ∧
            playerMinY < boxMaxY ∧ playerMaxY > boxMinY))

/-! ### Terrain (src/entities/Terrain.ts)

The 81×81 height grid is populated at construction from trigonometric noise
plus unseeded randomness; the sampling claims hold for *every* grid, so the
embedding takes the grid as a parameter `hm : Fin 81 → Fin 81 → ℚ`
(row index `i` ↔ world Z, column index `j` ↔ world X, as in the source). -/

/-- Generation-time affine map of `generateHeightMap`: column index `j` to
world X, `worldX = (j / (size - 1) - 0.5) * 100` with `size = 81`. -/
def worldOfIdx (j : Fin 81) : ℚ := ((j : ℕ) / 80 - 1/2) * 100

/-- Embeds `Terrain.isWithinBounds`. -/
def terrainIsWithinBounds (x z : ℚ) : Bool := decide (|x| ≤ 50 ∧ |z| ≤ 50)

/-- Fractional column coordinate `exactJ = ((x / 100) + 0.5) * (size - 1)`. -/
def exactJof (x : ℚ) : ℚ := (x / 100 + 1/2) * 80

/-- Fractional row coordinate `exactI = ((z / 100) + 0.5) * (size - 1)`. -/
def exactIof (z : ℚ) : ℚ := (z / 100 + 1/2) * 80

/-- Embeds `Math.max(0, Math.min(size - 1, i))` packaged as a `Fin 81`. -/
def clampIdx (i : ℤ) : Fin 81 :=
  ⟨(min 80 (max 0 i)).toNat, by omega⟩

/-- Embeds `Terrain.getHeightAt`: out-of-bounds queries return 0; in-bounds queries
bilinearly interpolate the four neighboring grid heights with fractional
parts `(fi, fj)`, neighbor indices clamped to `[0, 80]`. -/
def terrainGetHeightAt (hm : Fin 81 → Fin 81 → ℚ) (x z : ℚ) : ℚ :=
  if ¬ (terrainIsWithinBounds x z = true) then 0
  else
    let exactJ := exactJof x
    let exactI := exactIof z
    let i0 : ℤ := ⌊exactI⌋
    let i1 : ℤ := min (i0 + 1) 80
    let j0 : ℤ := ⌊exactJ⌋
    let j1 : ℤ := min (j0 + 1) 80
    let fi := exactI - i0
    let fj := exactJ - j0
    let h00 := hm (clampIdx i0) (clampIdx j0)
    let h01 := hm (clampIdx i0) (clampIdx j1)
    let h10 := hm (clampIdx i1) (clampIdx j0)
    let h11 := hm (clampIdx i1) (clampIdx j1)
    let h0 := h00 * (1 - fj) + h01 * fj
    let h1 := h10 * (1 - fj) + h11 * fj
    h0 * (1 - fi) + h1 * fi

/-! ### Player (src/entities/Player.ts)

Private constants of the `Player` class. -/

def speed : ℚ := 10

def jumpForce : ℚ := 15

def gravity : ℚ := -50

def terrainFollowSpeed : ℚ := 8

def attackRange : ℚ := 5/2

def attackDamage : ℚ := 25

def attackCooldownDuration : ℚ := 1/5

def attackAnimationDuration : ℚ := 1

/-- The `attackState` union type of `Player`. -/
inductive AttackState where
  | idle
  | movingToTarget
  | attacking
  | cooldown
deriving DecidableEq, Repr

/-- The simulation-relevant mutable fields of `Player`. -/
structure PlayerState where
  position : Vec3
  velocity : Vec3
  isOnGround : Bool
  targetGroundHeight : ℚ
  attackState : AttackState
  attackTarget : Option Vec3
  attackStateStartTime : ℚ
  damageDealtThisAttack : Bool
  shouldDealDamageThisFrame : Bool
deriving DecidableEq, Repr

/-- Embeds `InputManager.getMovementInput()` snapshot. -/
structure MoveInput where
  forward : ℚ
  right : ℚ
  up : ℚ
deriving DecidableEq, Repr

/-- The camera interface `Player.update` consumes: `getForwardDirection()` and
`getRightDirection()` (horizontal unit vectors). -/
structure Camera where
  fwd : Vec3
  right : Vec3
deriving DecidableEq, Repr

/-- Embeds `Player.setAttackState`: no-op on the current state; otherwise record the
new state with entry timestamp `now` and reset both damage flags when the new
state is `attacking`. -/
def setAttackState (now : ℚ) (ns : AttackState) (s : PlayerState) : PlayerState :=
  if s.attackState = ns then s
  else
    let s1 := { s with attackState := ns, attackStateStartTime := now }
    if ns = AttackState.attacking then
      { s1 with damageDealtThisAttack := false, shouldDealDamageThisFrame := false }
    else s1

/-- Embeds `Player.moveTowardsTarget`: advance x/z toward the target at full speed
along the normalized direction (`unitDir` stands for `.normalize()`); the
`faceTarget` call only rotates the model. -/
def moveTowardsTarget (unitDir : Vec3 → Vec3) (dt : ℚ) (s : PlayerState) : PlayerState :=
  match s.attackTarget with
  | none => s
  | some t =>
    let d := unitDir (Vec3.sub t s.position)
    let sp := speed * dt
    { s with position :=
        { s.position with x := s.position.x + d.x * sp, z := s.position.z + d.z * sp } }

/-- Embeds `Player.shouldContinueAttacking`: target present, not reported dead by the
liveness callback (when one is installed), and within twice the attack range
(`distance > attackRange * 2` embedded on squares). -/
def shouldContinueAttacking (aliveCb : Option (Vec3 → Bool)) (s : PlayerState) : Bool :=
  match s.attackTarget with
  | none => false
  | some t =>
    let aliveOk : Bool := match aliveCb with
      | some cb => cb t
      | none => true
    if aliveOk = false then false
    else if distSq s.position t > (attackRange * 2) ^ 2 then false
    else true

/-- Embeds `Player.updateAttackStateMachine`; `now` is the frame's `Date.now()/1000`
reading, `stateTime` the elapsed time in the current state. -/
def updateAttackStateMachine (unitDir : Vec3 → Vec3) (aliveCb : Option (Vec3 → Bool))
    (now dt : ℚ) (s : PlayerState) : PlayerState :=
  let stateTime := now - s.attackStateStartTime
  match s.attackState with
  | AttackState.idle => s
  | AttackState.movingToTarget =>
    match s.attackTarget with
    | none => setAttackState now AttackState.idle s
    | some t =>
      if distSq s.position t ≤ attackRange ^ 2 then
        setAttackState now AttackState.attacking s
      else
        moveTowardsTarget unitDir dt s
  | AttackState.attacking =>
    let s1 :=
      if s.damageDealtThisAttack = false ∧ stateTime ≥ attackAnimationDuration * (1/2) then
        { s with damageDealtThisAttack := true, shouldDealDamageThisFrame := true }
      else s
    if stateTime ≥ attackAnimationDuration then setAttackState now AttackState.cooldown s1
    else s1
  | AttackState.cooldown =>
    if stateTime ≥ attackCooldownDuration then
      if shouldContinueAttacking aliveCb s = true then
        setAttackState now AttackState.movingToTarget s
      else
        let s1 := setAttackState now AttackState.idle s
        { s1 with attackTarget := none }
    else s

/-- Embeds `Player.cancelAttack`. -/
def cancelAttack (now : ℚ) (s : PlayerState) : PlayerState :=
  let s1 := setAttackState now AttackState.idle s
  { s1 with attackTarget := none, damageDealtThisAttack := false,
            shouldDealDamageThisFrame := false }

/-- Embeds `Player.handleMovement` (animation selection and model rotation omitted:
render-only).  `hasMovementInput` is passed in by `update` as in the source. -/
def handleMovement (camera : Option Camera) (unitDir : Vec3 → Vec3) (dt : ℚ)
    (mv : MoveInput) (hasMovementInput : Bool) (s : PlayerState) : PlayerState :=
  let s :=
    if mv.up > 0 ∧ s.isOnGround = true then
      { s with velocity := { s.velocity with y := jumpForce }, isOnGround := false }
    else s
  let hd : Vec3 :=
    match camera with
    | some cam =>
      if hasMovementInput = true then
        unitDir (Vec3.add (Vec3.scale mv.forward cam.fwd) (Vec3.scale mv.right cam.right))
      else ⟨0, 0, 0⟩
    | none => ⟨0, 0, 0⟩
  if hd.lengthSq > 0 then
    let currentSpeed := if mv.forward < 0 ∧ |mv.forward| > |mv.right| then speed * (1/2) else speed
    let hv := Vec3.scale (currentSpeed * dt) hd
    { s with position :=
        { s.position with x := s.position.x + hv.x, z := s.position.z + hv.z } }
  else s

/-- Embeds `Player.applyPhysics`: gravity integration, ground height as the max of
the terrain sample and the collision top-landing height, landing clamp, and
smooth terrain following while grounded. -/
def applyPhysics (terrain : Option (ℚ → ℚ → ℚ)) (boxes : Option (List CollisionBox))
    (dt : ℚ) (s : PlayerState) : PlayerState :=
  let vy := s.velocity.y + gravity * dt
  let py := s.position.y + vy * dt
  let s1 : PlayerState := { s with velocity := { s.velocity with y := vy },
                                   position := { s.position with y := py } }
  let g1 : ℚ := match terrain with
    | some f => f s1.position.x s1.position.z
    | none => 0
  let groundHeight : ℚ := match boxes with
    | some bs => max g1 (cmGetHeightAt bs s1.position.x s1.position.z (1/2) s1.position.y)
    | none => g1
  let s2 : PlayerState := { s1 with targetGroundHeight := groundHeight }
  -- isFalling = velocity.y < 0, isJumping = velocity.y > 0
  if s2.position.y ≤ groundHeight ∧ s2.velocity.y < 0 then
    { s2 with position := { s2.position with y := groundHeight },
              velocity := { s2.velocity with y := 0 },
              isOnGround := true }
  else if s2.isOnGround = true ∧ ¬ (s2.velocity.y > 0) then
    let heightDiff := s2.targetGroundHeight - s2.position.y
    if |heightDiff| < 3 then
      let adjustmentSpeed := terrainFollowSpeed * dt
      let s3 : PlayerState := { s2 with position :=
          { s2.position with y := s2.position.y + heightDiff * adjustmentSpeed } }
      if |heightDiff| < 1/10 then
        { s3 with position := { s3.position with y := s3.targetGroundHeight } }
      else s3
    else { s2 with isOnGround := false }
  else if s2.velocity.y > 0 then { s2 with isOnGround := false }
  else s2

/-- The per-frame external collaborators of `Player.update`. -/
structure UpdateEnv where
  unitDir : Vec3 → Vec3
  aliveCb : Option (Vec3 → Bool)
  camera : Option Camera
  terrain : Option (ℚ → ℚ → ℚ)
  boxes : Option (List CollisionBox)

/-- Embeds `Player.update`: early return while the model is not loaded; otherwise
reset the one-shot damage signal, run the attack state machine, cancel the
attack on manual movement input, handle movement when the state permits it,
and apply physics.  (Copying the position into the model and advancing the
animation mixer are render-only.) -/
def playerUpdate (modelLoaded : Bool) (env : UpdateEnv) (now dt : ℚ)
    (mv : MoveInput) (s : PlayerState) : PlayerState :=
  if modelLoaded = false then s
  else
    let s := { s with shouldDealDamageThisFrame := false }
    let s := updateAttackStateMachine env.unitDir env.aliveCb now dt s
    let hasMovementInput : Bool := decide (mv.forward ≠ 0 ∨ mv.right ≠ 0)
    let s := if hasMovementInput = true ∧ s.attackState ≠ AttackState.idle then
        cancelAttack now s
      else s
    let canMove := s.attackState = AttackState.idle ∨ s.attackState = AttackState.movingToTarget
    let s := if canMove then handleMovement env.camera env.unitDir dt mv hasMovementInput s
      else s
    applyPhysics env.terrain env.boxes dt s

/-- Embeds `Player.startAttack`: rejected (with no state change) unless idle;
otherwise store a copy of the target position and enter `moving_to_target`.
(The source calls `targetPosition.clone()`; in this value-semantics embedding
the stored target is the call-time value of the argument.) -/
def startAttack (now : ℚ) (targetPosition : Vec3) (s : PlayerState) : Bool × PlayerState :=
  if s.attackState ≠ AttackState.idle then (false, s)
  else
    let s := { s with attackTarget := some targetPosition }
    (true, setAttackState now AttackState.movingToTarget s)

/-- Embeds `Player.shouldDealDamage`. -/
def shouldDealDamage (s : PlayerState) : Bool := s.shouldDealDamageThisFrame

/-! ### Enemy (base class in src/entities, `Slime` variant) and the
per-frame combat coordination of `WorldScene.update`. -/

/-- The combat-relevant fields of `Enemy`. -/
structure Enemy where
  position : Vec3
  health : ℚ
  maxHealth : ℚ
  isAlive : Bool
deriving DecidableEq, Repr

/-- Embeds `Enemy.takeDamage` with the inlined `die()`: damage after death is a
no-op; health crossing 0 flips `isAlive` and clamps health to 0. -/
def takeDamage (damage : ℚ) (e : Enemy) : Enemy :=
  if e.isAlive = false then e
  else
    let e1 : Enemy := { e with health := e.health - damage }
    if e1.health ≤ 0 then { e1 with isAlive := false, health := 0 }
    else e1

/-- The damage-application block of `WorldScene.update` (after
`player.update`): when the player's one-shot damage signal is set, every
member of `enemyManager.getAliveEnemies()` within `attackRange = 2.5` of the
player's current position takes `player.getAttackDamage()`.  The source
iterates a filtered copy of the registry and mutates the shared enemy
objects, which only alive enemies ever are; this is the same as mapping the
guarded damage step over the registry. -/
def worldDamagePhase (player : PlayerState) (enemies : List Enemy) : List Enemy :=
  if shouldDealDamage player = true then
    enemies.map (fun e =>
      if e.isAlive = true then
        if distSq player.position e.position ≤ attackRange ^ 2 then
          takeDamage attackDamage e
        else e
      else e)
  else enemies

/-! ### Frame sequences (for the once-per-attack-visit claim) -/

/-- The per-frame inputs of one `Player.update` call. -/
structure FrameIn where
  now : ℚ
  dt : ℚ
  mv : MoveInput
deriving Repr

/-- A run of `Player.update` calls (model loaded), returning the state after
each frame. -/
def updateRun (env : UpdateEnv) (s : PlayerState) : List FrameIn → List PlayerState
  | [] => []
  | f :: fs =>
    let s1 := playerUpdate true env f.now f.dt f.mv s
    s1 :: updateRun env s1 fs

/-- Default inhabitants used with `List.getD`. -/
def dummyPlayer : PlayerState :=
  { position := ⟨0, 0, 0⟩, velocity := ⟨0, 0, 0⟩, isOnGround := true,
    targetGroundHeight := 0, attackState := AttackState.idle, attackTarget := none,
    attackStateStartTime := 0, damageDealtThisAttack := false,
    shouldDealDamageThisFrame := false }

def dummyFrame : FrameIn := { now := 0, dt := 0, mv := ⟨0, 0, 0⟩ }

def dummyEnemy : Enemy := { position := ⟨0, 0, 0⟩, health := 100, maxHealth := 100, isAlive := true }

/-! ### Analysis helper definitions -/

/-- Analysis form of the in-bounds bilinear formula of `Terrain.getHeightAt`
with the two cell indices `(iC, jC)` made explicit; the source fixes
`iC = ⌊exactI⌋` and `jC = ⌊exactJ⌋`.  Used to state continuity across grid
cell boundaries (the same point evaluated from the adjacent cell). -/
def bilinearCell (hm : Fin 81 → Fin 81 → ℚ) (iC jC : ℤ) (x z : ℚ) : ℚ :=
  let i1 : ℤ := min (iC + 1) 80
  let j1 : ℤ := min (jC + 1) 80
  let fi := exactIof z - iC
  let fj := exactJof x - jC
  let h00 := hm (clampIdx iC) (clampIdx jC)
  let h01 := hm (clampIdx iC) (clampIdx j1)
  let h10 := hm (clampIdx i1) (clampIdx jC)
  let h11 := hm (clampIdx i1) (clampIdx j1)
  let h0 := h00 * (1 - fj) + h01 * fj
  let h1 := h10 * (1 - fj) + h11 * fj
  h0 * (1 - fi) + h1 * fi

/-- Modelled from the spec: `Player.update` with the claimed ordering, the
manual-movement cancellation checked *before* the state machine's own
transition logic runs; everything else identical to `playerUpdate`. -/
def playerUpdateCancelFirst (modelLoaded : Bool) (env : UpdateEnv) (now dt : ℚ)
    (mv : MoveInput) (s : PlayerState) : PlayerState :=
  if modelLoaded = false then s
  else
    let s0 := { s with shouldDealDamageThisFrame := false }
    let hasMovementInput : Bool := decide (mv.forward ≠ 0 ∨ mv.right ≠ 0)
    let s1 := if hasMovementInput = true ∧ s0.attackState ≠ AttackState.idle then
        cancelAttack now s0
      else s0
    let s2 := updateAttackStateMachine env.unitDir env.aliveCb now dt s1
    let s3 := if s2.attackState = AttackState.idle ∨ s2.attackState = AttackState.movingToTarget
      then handleMovement env.camera env.unitDir dt mv hasMovementInput s2
      else s2
    applyPhysics env.terrain env.boxes dt s3

/-! ### Concrete scenario data used by the closed theorems -/

/-- Embeds `THREE.Vector3.normalize` restricted to axis-aligned vectors: it
agrees with the exact Euclidean normalization whenever at most one component
is nonzero, which covers every vector the concrete scenarios below
normalize. -/
def axisNormalize (v : Vec3) : Vec3 :=
  ⟨if v.x > 0 then 1 else if v.x < 0 then -1 else 0,
   if v.y > 0 then 1 else if v.y < 0 then -1 else 0,
   if v.z > 0 then 1 else if v.z < 0 then -1 else 0⟩

/-- Embeds the debug cube registered with the collision manager in
`WorldScene.initialize`: center `(0, 1, 3)`, size `(2, 2, 2)`. -/
def debugCubeBox : CollisionBox := { position := ⟨0, 1, 3⟩, size := ⟨2, 2, 2⟩ }

/-- Flat terrain sample (height 0 everywhere). -/
def terrainFlat : ℚ → ℚ → ℚ := fun _ _ => 0

/-- Environment of the horizontal-collision scenario: camera looking down the
−Z axis, flat terrain, and the scene's debug cube registered. -/
def envC3 : UpdateEnv :=
  { unitDir := axisNormalize, aliveCb := none,
    camera := some { fwd := ⟨0, 0, -1⟩, right := ⟨1, 0, 0⟩ },
    terrain := some terrainFlat, boxes := some [debugCubeBox] }

/-- Player standing on the ground at `(0, 0, 6)`, idle. -/
def sC3 : PlayerState := { dummyPlayer with position := ⟨0, 0, 6⟩ }

/-- Environment of the cancellation and attack-visit scenarios: no camera (so
manual input itself moves nothing), no terrain or boxes. -/
def envC2 : UpdateEnv :=
  { unitDir := axisNormalize, aliveCb := none, camera := none,
    terrain := none, boxes := none }

/-- Player at the origin chasing a target at `(10, 0, 0)`. -/
def sC2 : PlayerState :=
  { dummyPlayer with attackState := AttackState.movingToTarget,
                     attackTarget := some ⟨10, 0, 0⟩ }

/-- Collision box centered at the origin with size `(2, 2, 2)` (top at 1). -/
def box00 : CollisionBox := { position := ⟨0, 0, 0⟩, size := ⟨2, 2, 2⟩ }

/-- Player just above the top of `box00`, falling. -/
def sC4 : PlayerState := { dummyPlayer with position := ⟨0, 1, 0⟩, velocity := ⟨0, -1, 0⟩ }

/-- Player in `cooldown` (entered at time 0) whose target at `(10, 0, 0)` has
drifted out of the continue range. -/
def sC7 : PlayerState :=
  { dummyPlayer with attackState := AttackState.cooldown,
                     attackTarget := some ⟨10, 0, 0⟩ }

/-- Player whose one-shot damage signal is set this frame. -/
def pC9 : PlayerState := { dummyPlayer with shouldDealDamageThisFrame := true }

/-- Enemy registry for the damage scan: one alive in range, one alive out of
range, one dead in range. -/
def esC9 : List Enemy :=
  [{ position := ⟨1, 0, 0⟩, health := 100, maxHealth := 100, isAlive := true },
   { position := ⟨10, 0, 0⟩, health := 100, maxHealth := 100, isAlive := true },
   { position := ⟨1, 1, 0⟩, health := 50, maxHealth := 100, isAlive := false }]

/-- Player freshly entered into `attacking` at time 0. -/
def sC1 : PlayerState := { dummyPlayer with attackState := AttackState.attacking }

/-- Three frames of an attack visit: before the 50% mark, after it, and
later still within the animation. -/
def fsC1 : List FrameIn :=
  [{ now := 3/10, dt := 1/60, mv := ⟨0, 0, 0⟩ },
   { now := 3/5, dt := 1/60, mv := ⟨0, 0, 0⟩ },
   { now := 9/10, dt := 1/60, mv := ⟨0, 0, 0⟩ }]

/-- Example height grid for the sampling witnesses. -/
def hmEx : Fin 81 → Fin 81 → ℚ := fun i j => (i : ℕ) * 1000 + (j : ℕ)

/-! ### Helper lemmas -/

/-- Unfolding of `Player.update` in the loaded case: machine step first, then
the movement-input cancellation check, then movement when permitted, then
physics. -/
lemma playerUpdate_eq (env : UpdateEnv) (now dt : ℚ) (mv : MoveInput) (s : PlayerState) :
    playerUpdate true env now dt mv s =
      (let sm := updateAttackStateMachine env.unitDir env.aliveCb now dt
          { s with shouldDealDamageThisFrame := false }
       let hasInput : Bool := decide (mv.forward ≠ 0 ∨ mv.right ≠ 0)
       let sc := if hasInput = true ∧ sm.attackState ≠ AttackState.idle then
           cancelAttack now sm
         else sm
       let sh := if sc.attackState = AttackState.idle ∨
           sc.attackState = AttackState.movingToTarget then
           handleMovement env.camera env.unitDir dt mv hasInput sc
         else sc
       applyPhysics env.terrain env.boxes dt sh) := rfl

/-- Movement handling only touches position, velocity and the grounded flag:
all attack-machine fields pass through unchanged. -/
lemma handleMovement_attack_fields (camera : Option Camera) (unitDir : Vec3 → Vec3)
    (dt : ℚ) (mv : MoveInput) (b : Bool) (s : PlayerState) :
    (handleMovement camera unitDir dt mv b s).attackState = s.attackState ∧
    (handleMovement camera unitDir dt mv b s).attackTarget = s.attackTarget ∧
    (handleMovement camera unitDir dt mv b s).attackStateStartTime = s.attackStateStartTime ∧
    (handleMovement camera unitDir dt mv b s).damageDealtThisAttack = s.damageDealtThisAttack ∧
    (handleMovement camera unitDir dt mv b s).shouldDealDamageThisFrame =
      s.shouldDealDamageThisFrame := by
  rcases camera with _ | cam <;> (simp only [handleMovement]; split_ifs <;> simp [Vec3.lengthSq])

/-- Physics only touches position, velocity, the grounded flag and the target
ground height: all attack-machine fields pass through unchanged. -/
lemma applyPhysics_attack_fields (terrain : Option (ℚ → ℚ → ℚ))
    (boxes : Option (List CollisionBox)) (dt : ℚ) (s : PlayerState) :
    (applyPhysics terrain boxes dt s).attackState = s.attackState ∧
    (applyPhysics terrain boxes dt s).attackTarget = s.attackTarget ∧
    (applyPhysics terrain boxes dt s).attackStateStartTime = s.attackStateStartTime ∧
    (applyPhysics terrain boxes dt s).damageDealtThisAttack = s.damageDealtThisAttack ∧
    (applyPhysics terrain boxes dt s).shouldDealDamageThisFrame =
      s.shouldDealDamageThisFrame := by
  rcases terrain with _ | f <;> rcases boxes with _ | bs <;>
    (simp only [applyPhysics]; split_ifs <;> simp [Vec3.lengthSq])

/-- Cancellation always lands in `idle` with target and both flags cleared. -/
lemma cancelAttack_fields (now : ℚ) (s : PlayerState) :
    (cancelAttack now s).attackState = AttackState.idle ∧
    (cancelAttack now s).attackTarget = none ∧
    (cancelAttack now s).damageDealtThisAttack = false ∧
    (cancelAttack now s).shouldDealDamageThisFrame = false := by
  unfold cancelAttack setAttackState
  split_ifs <;> simp_all

/-! ### C10 — update before the model is loaded is a no-op -/

/-- C10: while the model has not finished loading, `Player.update` returns
immediately and the entire player state (position, velocity, grounded flag,
attack state, target, timestamps and both damage flags) is unchanged; in
particular no damage signal is raised in such a frame. -/
theorem c10_update_noop_before_model_loaded (env : UpdateEnv) (now dt : ℚ)
    (mv : MoveInput) (s : PlayerState) :
    playerUpdate false env now dt mv s = s := by
  simp [playerUpdate]

/-! ### C8 — startAttack contract -/

/-- C8: `Player.startAttack` returns `false` and changes nothing unless the
attack state is `idle`; from `idle` it stores the call-time value of the
target position (the source stores `targetPosition.clone()`, so later caller
mutation cannot reach the state machine), enters `moving_to_target` with a
fresh state timestamp, and returns `true`. -/
theorem c8_startAttack_contract (now : ℚ) (tp : Vec3) (s : PlayerState) :
    startAttack now tp s =
      (if s.attackState = AttackState.idle then
        (true, { s with attackTarget := some tp,
                        attackState := AttackState.movingToTarget,
                        attackStateStartTime := now })
      else (false, s)) := by
  by_cases h : s.attackState = AttackState.idle
  · simp [startAttack, setAttackState, h]
  · simp [startAttack, setAttackState, h]

/-! ### C6 — out-of-bounds terrain queries -/

/-- C6: outside the fixed world extent (`|x| > 50` or `|z| > 50`),
`Terrain.getHeightAt` returns exactly 0.  (The embedding is a total function
into ℚ, mirroring that the source never throws and always produces a finite
number: in-bounds neighbor indices are clamped into the grid before use.) -/
theorem c6_out_of_bounds_height_zero (hm : Fin 81 → Fin 81 → ℚ) (x z : ℚ)
    (h : 50 < |x| ∨ 50 < |z|) : terrainGetHeightAt hm x z = 0 := by
  have hb : ¬ (|x| ≤ 50 ∧ |z| ≤ 50) := by
    rcases h with h | h <;> rintro ⟨h1, h2⟩ <;> linarith
  simp [terrainGetHeightAt, terrainIsWithinBounds, hb]

/-- Witness for C6 at the concrete out-of-bounds input `(51, 0)`. -/
theorem c6_witness :
    50 < |(51 : ℚ)| ∧ terrainGetHeightAt (fun _ _ => 7) 51 0 = 0 :=
  ⟨by norm_num, c6_out_of_bounds_height_zero (fun _ _ => 7) 51 0 (Or.inl (by norm_num))⟩

/-! ### C3 — horizontal collision blocking (code bug)

The current `Player.handleMovement` commits the proposed position without
ever querying `CollisionManager.checkHorizontalCollision` (the per-axis calls
exist only in a superseded Player variant in the project history), so manual
movement walks straight into collision volumes. -/

/-- C3 (divergence): one frame of forward input (`Δt = 0.4`) moves the player
from `(0, 0, 6)` to `(0, 0, 2)`, a position whose radius-0.5, height-2 body
overlaps the scene's debug cube on all three axes — exactly the
configuration `checkHorizontalCollision` reports as blocked — because
`handleMovement` never consults the collision manager before committing. -/
theorem c3_horizontal_collision_ignored :
    (playerUpdate true envC3 0 (2/5) ⟨1, 0, 0⟩ sC3).position = ⟨0, 0, 2⟩ ∧
    checkHorizontalCollision [debugCubeBox]
      (playerUpdate true envC3 0 (2/5) ⟨1, 0, 0⟩ sC3).position.x
      (playerUpdate true envC3 0 (2/5) ⟨1, 0, 0⟩ sC3).position.z
      (playerUpdate true envC3 0 (2/5) ⟨1, 0, 0⟩ sC3).position.y
      (1/2) 2 = true := by
  norm_num [playerUpdate, updateAttackStateMachine, setAttackState, cancelAttack,
    moveTowardsTarget, shouldContinueAttacking, handleMovement, applyPhysics,
    cmGetHeightAt, checkHorizontalCollision, envC3, sC3, dummyPlayer, debugCubeBox,
    terrainFlat, axisNormalize, Vec3.lengthSq, Vec3.add, Vec3.sub, Vec3.scale, distSq,
    speed, gravity, jumpForce, terrainFollowSpeed, attackRange, attackDamage,
    attackCooldownDuration, attackAnimationDuration, List.foldl, List.any]

/-! ### C2 — movement cancellation vs. state-machine ordering (corrected)

The source's `Player.update` runs `updateAttackStateMachine` *first* (line
208) and only then checks manual movement input and cancels (lines 211–217);
the claim asserts the opposite order.  The order is observable: in
`moving_to_target`, the machine advances the position toward the target in
the same frame in which the movement input cancels the attack. -/

/-- C2 counterexample: with forward input during `moving_to_target`, the real
`Player.update` still advances the player 1 unit toward the target
(`moveTowardsTarget` runs before the cancellation check), whereas under the
claimed cancel-first ordering the position would stay at `x = 0`.  Both end
idle, but the frame's outcome differs, so the claimed ordering is false. -/
theorem c2_counterexample_machine_runs_first :
    (playerUpdate true envC2 0 (1/10) ⟨1, 0, 0⟩ sC2).position.x = 1 ∧
    (playerUpdateCancelFirst true envC2 0 (1/10) ⟨1, 0, 0⟩ sC2).position.x = 0 ∧
    (playerUpdate true envC2 0 (1/10) ⟨1, 0, 0⟩ sC2).attackState = AttackState.idle ∧
    (playerUpdateCancelFirst true envC2 0 (1/10) ⟨1, 0, 0⟩ sC2).attackState =
      AttackState.idle := by
  simp [playerUpdate, playerUpdateCancelFirst, updateAttackStateMachine, setAttackState,
    cancelAttack, moveTowardsTarget, shouldContinueAttacking, handleMovement, applyPhysics,
    envC2, sC2, dummyPlayer, axisNormalize, Vec3.lengthSq, Vec3.add, Vec3.sub, Vec3.scale,
    distSq, speed, gravity, jumpForce, terrainFollowSpeed, attackRange, attackDamage,
    attackCooldownDuration, attackAnimationDuration]
  norm_num
  simp

/-- C2 amended: in `Player.update` the cancellation is checked *after* the
state machine's own transition logic (so that frame's machine step — e.g. a
`moveTowardsTarget` advance — precedes it), but still before movement
handling and physics: whenever the movement input is nonzero and the state
after the machine step is not `idle`, the update ends the frame in `idle`
with the target and both damage flags cleared, so no damage signal survives
the frame. -/
theorem c2_cancellation_forces_idle (env : UpdateEnv) (now dt : ℚ) (mv : MoveInput)
    (s : PlayerState)
    (hmv : mv.forward ≠ 0 ∨ mv.right ≠ 0)
    (hpost : (updateAttackStateMachine env.unitDir env.aliveCb now dt
        { s with shouldDealDamageThisFrame := false }).attackState ≠ AttackState.idle) :
    (playerUpdate true env now dt mv s).attackState = AttackState.idle ∧
    (playerUpdate true env now dt mv s).attackTarget = none ∧
    (playerUpdate true env now dt mv s).damageDealtThisAttack = false ∧
    (playerUpdate true env now dt mv s).shouldDealDamageThisFrame = false := by
  have hb : decide (mv.forward ≠ 0 ∨ mv.right ≠ 0) = true := by simpa using hmv
  rw [playerUpdate_eq]
  simp only [hb]
  set sm := updateAttackStateMachine env.unitDir env.aliveCb now dt
      { s with shouldDealDamageThisFrame := false } with hsm
  rw [if_pos (⟨trivial, hpost⟩ : True ∧ sm.attackState ≠ AttackState.idle)]
  obtain ⟨hc1, hc2, hc3, hc4⟩ := cancelAttack_fields now sm
  rw [if_pos (Or.inl hc1 :
    (cancelAttack now sm).attackState = AttackState.idle ∨
    (cancelAttack now sm).attackState = AttackState.movingToTarget)]
  obtain ⟨m1, m2, _, m4, m5⟩ := handleMovement_attack_fields env.camera env.unitDir dt mv
    true (cancelAttack now sm)
  obtain ⟨p1, p2, _, p4, p5⟩ := applyPhysics_attack_fields env.terrain env.boxes dt
    (handleMovement env.camera env.unitDir dt mv true (cancelAttack now sm))
  exact ⟨p1.trans (m1.trans hc1), p2.trans (m2.trans hc2),
    p4.trans (m4.trans hc3), p5.trans (m5.trans hc4)⟩

/-- Witness for C2 (amended) at the concrete cancellation scenario. -/
theorem c2_witness :
    ((1 : ℚ) ≠ 0 ∨ (0 : ℚ) ≠ 0) ∧
    (playerUpdate true envC2 0 (1/10) ⟨1, 0, 0⟩ sC2).attackState = AttackState.idle ∧
    (playerUpdate true envC2 0 (1/10) ⟨1, 0, 0⟩ sC2).attackTarget = none := by
  have h := c2_cancellation_forces_idle envC2 0 (1/10) ⟨1, 0, 0⟩ sC2
    (Or.inl (by norm_num))
    (by
      simp [updateAttackStateMachine, setAttackState, moveTowardsTarget, sC2,
        dummyPlayer, envC2, axisNormalize, distSq, attackRange, attackAnimationDuration]
      all_goals norm_num
      all_goals decide)
  exact ⟨Or.inl (by norm_num), h.1, h.2.1⟩

/-! ### C4 — landing clamps to the combined ground height -/

/-- C4: in `applyPhysics`, when the post-gravity vertical velocity is
negative and the integrated position crosses at or below the greater of the
terrain height and the collision top-landing height at the current `(x, z)`
(the landing height being the maximum top `box.position.y + box.size.y / 2`
over boxes whose radius-expanded footprint contains `(x, z)` and whose top
is at or below the player within the 0.1 tolerance, per `cmGetHeightAt`),
the position is clamped exactly to that ground height, the vertical velocity
is zeroed, and the grounded flag becomes true. -/
theorem c4_landing_clamps_to_ground (f : ℚ → ℚ → ℚ) (bs : List CollisionBox) (dt : ℚ)
    (s : PlayerState)
    (hvy : s.velocity.y + gravity * dt < 0)
    (hpy : s.position.y + (s.velocity.y + gravity * dt) * dt ≤
        max (f s.position.x s.position.z)
          (cmGetHeightAt bs s.position.x s.position.z (1/2)
            (s.position.y + (s.velocity.y + gravity * dt) * dt))) :
    (applyPhysics (some f) (some bs) dt s).position.y =
        max (f s.position.x s.position.z)
          (cmGetHeightAt bs s.position.x s.position.z (1/2)
            (s.position.y + (s.velocity.y + gravity * dt) * dt)) ∧
    (applyPhysics (some f) (some bs) dt s).velocity.y = 0 ∧
    (applyPhysics (some f) (some bs) dt s).isOnGround = true ∧
    (applyPhysics (some f) (some bs) dt s).position.x = s.position.x ∧
    (applyPhysics (some f) (some bs) dt s).position.z = s.position.z := by
  simp only [applyPhysics]
  split_ifs with h
  · exact ⟨rfl, rfl, rfl, rfl, rfl⟩
  all_goals exact absurd ⟨hpy, hvy⟩ h

/-- Witness for C4: falling onto `box00` (top at 1) from `y = 1` with
downward velocity, `Δt = 1/100`; the player stops exactly at 1. -/
theorem c4_witness :
    sC4.velocity.y + gravity * (1/100) < 0 ∧
    (applyPhysics (some terrainFlat) (some [box00]) (1/100) sC4).position.y = 1 ∧
    (applyPhysics (some terrainFlat) (some [box00]) (1/100) sC4).velocity.y = 0 ∧
    (applyPhysics (some terrainFlat) (some [box00]) (1/100) sC4).isOnGround = true := by
  have h := c4_landing_clamps_to_ground terrainFlat [box00] (1/100) sC4
    (by norm_num [sC4, dummyPlayer, gravity])
    (by norm_num [sC4, dummyPlayer, gravity, terrainFlat, cmGetHeightAt, box00, List.foldl])
  refine ⟨by norm_num [sC4, dummyPlayer, gravity], ?_, h.2.1, h.2.2.1⟩
  rw [h.1]
  norm_num [sC4, dummyPlayer, gravity, terrainFlat, cmGetHeightAt, box00, List.foldl]

/-! ### C7 — cooldown decision -/

/-- Characterization of `shouldContinueAttacking` with a liveness callback
installed: continue iff a target is set, the callback reports it alive, and
it is within twice the attack range. -/
lemma shouldContinueAttacking_some_iff (f : Vec3 → Bool) (s : PlayerState) :
    shouldContinueAttacking (some f) s = true ↔
      ∃ t, s.attackTarget = some t ∧ f t = true ∧
        distSq s.position t ≤ (attackRange * 2) ^ 2 := by
  unfold shouldContinueAttacking
  rcases ht : s.attackTarget with _ | t
  · simp
  · simp only []
    constructor
    · intro h
      rcases Bool.eq_false_or_eq_true (f t) with hf | hf
      · simp [hf] at h
        exact ⟨t, rfl, hf, h⟩
      · simp [hf] at h
    · rintro ⟨t', ht', hft, hdt⟩
      obtain rfl := Option.some.inj ht'
      simp [hft, not_lt.mpr hdt]

/-- C7: in `cooldown`, once the elapsed state time reaches the cooldown
duration, the machine returns to `idle` with the target cleared **iff** the
target is unset, the installed liveness callback reports it dead, or the
player has drifted beyond twice the attack range (squared-distance form);
otherwise it transitions back to `moving_to_target`, keeping the target. -/
theorem c7_cooldown_continue_or_idle (unitDir : Vec3 → Vec3) (f : Vec3 → Bool)
    (now dt : ℚ) (s : PlayerState)
    (hstate : s.attackState = AttackState.cooldown)
    (htime : now - s.attackStateStartTime ≥ attackCooldownDuration) :
    ((updateAttackStateMachine unitDir (some f) now dt s).attackState = AttackState.idle ∧
      (updateAttackStateMachine unitDir (some f) now dt s).attackTarget = none ↔
      ∀ t, s.attackTarget = some t →
        f t = false ∨ (attackRange * 2) ^ 2 < distSq s.position t) ∧
    ((¬ ∀ t, s.attackTarget = some t →
        f t = false ∨ (attackRange * 2) ^ 2 < distSq s.position t) →
      (updateAttackStateMachine unitDir (some f) now dt s).attackState =
        AttackState.movingToTarget ∧
      (updateAttackStateMachine unitDir (some f) now dt s).attackTarget = s.attackTarget) := by
  have hmain : updateAttackStateMachine unitDir (some f) now dt s =
      (if shouldContinueAttacking (some f) s = true then
        setAttackState now AttackState.movingToTarget s
      else
        { setAttackState now AttackState.idle s with attackTarget := none }) := by
    unfold updateAttackStateMachine
    rw [hstate]
    simp [htime]
  have hiff : shouldContinueAttacking (some f) s = true ↔
      ¬ ∀ t, s.attackTarget = some t →
        f t = false ∨ (attackRange * 2) ^ 2 < distSq s.position t := by
    rw [shouldContinueAttacking_some_iff]
    push_neg
    simp only [Bool.not_eq_false]
  constructor
  · constructor
    · rintro ⟨h1, _⟩
      by_contra hno
      rw [hmain, if_pos (hiff.mpr hno)] at h1
      simp [setAttackState, hstate] at h1
    · intro hall
      have hc : shouldContinueAttacking (some f) s = false := by
        rcases Bool.eq_false_or_eq_true (shouldContinueAttacking (some f) s) with h | h
        · exact absurd hall (hiff.mp h)
        · exact h
      rw [hmain, if_neg (by simp [hc])]
      constructor
      · simp [setAttackState, hstate]
      · simp
  · intro hno
    rw [hmain, if_pos (hiff.mpr hno)]
    constructor
    · simp [setAttackState, hstate]
    · simp [setAttackState, hstate]

/-- Witness for C7: cooldown elapsed with the target 10 units away (beyond
twice the 2.5 attack range) and a callback reporting it alive: the machine
goes idle and clears the target. -/
theorem c7_witness :
    sC7.attackState = AttackState.cooldown ∧
    (1 : ℚ) - sC7.attackStateStartTime ≥ attackCooldownDuration ∧
    (updateAttackStateMachine axisNormalize (some (fun _ => true)) 1 (1/60) sC7).attackState
      = AttackState.idle ∧
    (updateAttackStateMachine axisNormalize (some (fun _ => true)) 1 (1/60) sC7).attackTarget
      = none := by
  have h := c7_cooldown_continue_or_idle axisNormalize (fun _ => true) 1 (1/60) sC7 rfl
    (by norm_num [sC7, dummyPlayer, attackCooldownDuration])
  have hall : ∀ t, sC7.attackTarget = some t →
      (fun _ => true) t = false ∨ (attackRange * 2) ^ 2 < distSq sC7.position t := by
    intro t ht
    right
    obtain rfl := Option.some.inj (show some (Vec3.mk 10 0 0) = some t from ht)
    norm_num [sC7, dummyPlayer, distSq, attackRange]
  obtain ⟨h1, h2⟩ := h.1.mpr hall
  exact ⟨rfl, by norm_num [sC7, dummyPlayer, attackCooldownDuration], h1, h2⟩

/-! ### C9 — per-frame damage scan over all enemies in range -/

/-- C9: in the damage-application block of `WorldScene.update`, when the
player's one-shot damage signal is set, exactly the live enemies within the
attack range of the player's current position take the player's attack
damage (`takeDamage attackDamage`, with `attackDamage = 25` and
`attackRange = 5/2`), every other enemy is untouched, and the scan is
independent of the state machine's locked target. -/
theorem c9_damage_scan_hits_all_in_range (p : PlayerState) (es : List Enemy)
    (t : Option Vec3) :
    (worldDamagePhase p es).length = es.length ∧
    (∀ i, i < es.length →
      (worldDamagePhase p es).getD i dummyEnemy =
        (if shouldDealDamage p = true ∧ (es.getD i dummyEnemy).isAlive = true ∧
            distSq p.position (es.getD i dummyEnemy).position ≤ attackRange ^ 2 then
          takeDamage attackDamage (es.getD i dummyEnemy)
        else es.getD i dummyEnemy)) ∧
    worldDamagePhase { p with attackTarget := t } es = worldDamagePhase p es ∧
    attackDamage = 25 ∧ attackRange = 5/2 := by
  refine ⟨?_, ?_, rfl, rfl, rfl⟩
  · unfold worldDamagePhase
    split_ifs <;> simp
  · intro i hi
    unfold worldDamagePhase
    by_cases hp : shouldDealDamage p = true
    · rw [if_pos hp]
      have hmap : (es.map (fun e =>
          if e.isAlive = true then
            if distSq p.position e.position ≤ attackRange ^ 2 then
              takeDamage attackDamage e
            else e
          else e)).getD i dummyEnemy =
          (fun e =>
            if e.isAlive = true then
              if distSq p.position e.position ≤ attackRange ^ 2 then
                takeDamage attackDamage e
              else e
            else e) (es.getD i dummyEnemy) := by
        rw [List.getD_eq_getElem?_getD, List.getD_eq_getElem?_getD, List.getElem?_map]
        rw [List.getElem?_eq_getElem hi]
        rfl
      rw [hmap]
      simp only []
      split_ifs <;> tauto
    · rw [if_neg hp]
      simp [hp]

/-- Witness for C9: with the signal set, the in-range live enemy (distance 1)
takes 25 damage, the out-of-range live enemy (distance 10) is untouched, and
the dead in-range enemy is untouched. -/
theorem c9_witness :
    (0 : ℕ) < esC9.length ∧
    (worldDamagePhase pC9 esC9).getD 0 dummyEnemy =
      takeDamage attackDamage (esC9.getD 0 dummyEnemy) ∧
    (worldDamagePhase pC9 esC9).getD 1 dummyEnemy = esC9.getD 1 dummyEnemy ∧
    (worldDamagePhase pC9 esC9).getD 2 dummyEnemy = esC9.getD 2 dummyEnemy := by
  have h := c9_damage_scan_hits_all_in_range pC9 esC9 none
  refine ⟨by norm_num [esC9], ?_, ?_, ?_⟩
  · rw [h.2.1 0 (by norm_num [esC9])]
    rw [if_pos ?_]
    refine ⟨rfl, ?_, ?_⟩ <;>
      norm_num [pC9, esC9, dummyPlayer, distSq, attackRange, shouldDealDamage]
  · rw [h.2.1 1 (by norm_num [esC9])]
    rw [if_neg ?_]
    rintro ⟨-, -, hd⟩
    norm_num [pC9, esC9, dummyPlayer, distSq, attackRange] at hd
  · rw [h.2.1 2 (by norm_num [esC9])]
    rw [if_neg ?_]
    rintro ⟨-, ha, -⟩
    norm_num [esC9] at ha

/-! ### C5 — sampling is the exact inverse of the generation mapping -/

/-- Clamping is the identity on indices already in the grid. -/
lemma clampIdx_coe (j : Fin 81) : clampIdx ((j : ℕ) : ℤ) = j := by
  have hj : (j : ℕ) ≤ 80 := Nat.lt_succ_iff.mp j.isLt
  apply Fin.ext
  simp [clampIdx]
  omega

/-- Grid points lie inside the world extent. -/
lemma worldOfIdx_abs_le (j : Fin 81) : |worldOfIdx j| ≤ 50 := by
  have h0 : (0 : ℚ) ≤ ((j : ℕ) : ℚ) := Nat.cast_nonneg _
  have h80 : ((j : ℕ) : ℚ) ≤ 80 := by exact_mod_cast Nat.lt_succ_iff.mp j.isLt
  unfold worldOfIdx
  rw [abs_le]
  constructor <;> nlinarith

/-- The sampling-time column coordinate inverts the generation-time map. -/
lemma exactJof_worldOfIdx (j : Fin 81) : exactJof (worldOfIdx j) = ((j : ℕ) : ℚ) := by
  unfold exactJof worldOfIdx
  ring

/-- The sampling-time row coordinate inverts the generation-time map. -/
lemma exactIof_worldOfIdx (i : Fin 81) : exactIof (worldOfIdx i) = ((i : ℕ) : ℚ) := by
  unfold exactIof worldOfIdx
  ring

/-- C5: the sampler is the exact inverse of the generation-time mapping — at
every grid point `(i, j)` the sampled height at the generation-time world
coordinates is exactly the stored grid value; at every in-bounds point the
result is the bilinear interpolation of the four neighboring grid heights
(`bilinearCell` at the floor cell); and the interpolation is continuous
across cell boundaries: on an interior grid line the adjacent cell's formula
produces the same value (both in the row and in the column direction). -/
theorem c5_sampler_inverse_of_generation (hm : Fin 81 → Fin 81 → ℚ) :
    (∀ i j : Fin 81,
      terrainGetHeightAt hm (worldOfIdx j) (worldOfIdx i) = hm i j) ∧
    (∀ x z : ℚ, terrainIsWithinBounds x z = true →
      terrainGetHeightAt hm x z = bilinearCell hm ⌊exactIof z⌋ ⌊exactJof x⌋ x z) ∧
    (∀ x z : ℚ, ∀ k : ℤ, terrainIsWithinBounds x z = true →
      1 ≤ k → k ≤ 80 → exactIof z = (k : ℚ) →
      bilinearCell hm (k - 1) ⌊exactJof x⌋ x z = terrainGetHeightAt hm x z) ∧
    (∀ x z : ℚ, ∀ m : ℤ, terrainIsWithinBounds x z = true →
      1 ≤ m → m ≤ 80 → exactJof x = (m : ℚ) →
      bilinearCell hm ⌊exactIof z⌋ (m - 1) x z = terrainGetHeightAt hm x z) := by
  have hpart2 : ∀ x z : ℚ, terrainIsWithinBounds x z = true →
      terrainGetHeightAt hm x z = bilinearCell hm ⌊exactIof z⌋ ⌊exactJof x⌋ x z := by
    intro x z hb
    unfold terrainGetHeightAt bilinearCell
    rw [if_neg (by simp [hb])]
  refine ⟨?_, hpart2, ?_, ?_⟩
  · intro i j
    have hb : terrainIsWithinBounds (worldOfIdx j) (worldOfIdx i) = true := by
      unfold terrainIsWithinBounds
      simp only [decide_eq_true_eq]
      exact ⟨worldOfIdx_abs_le j, worldOfIdx_abs_le i⟩
    unfold terrainGetHeightAt
    rw [if_neg (by simp [hb])]
    rw [exactJof_worldOfIdx, exactIof_worldOfIdx]
    simp [Int.floor_natCast, clampIdx_coe, Int.cast_natCast]
  · intro x z k hb hk1 hk80 hI
    rw [hpart2 x z hb, hI, Int.floor_intCast]
    unfold bilinearCell
    rw [hI]
    have hmin : min (k - 1 + 1) 80 = k := by omega
    rw [hmin]
    push_cast
    ring
  · intro x z m hb hm1 hm80 hJ
    rw [hpart2 x z hb, hJ, Int.floor_intCast]
    unfold bilinearCell
    rw [hJ]
    have hmin : min (m - 1 + 1) 80 = m := by omega
    rw [hmin]
    push_cast
    ring

/-- Witness for C5: a concrete grid point recovers the stored value, a
concrete in-cell point matches the floor-cell bilinear formula, and concrete
interior grid lines (`exactI = 40` at `z = 0`, `exactJ = 40` at `x = 0`)
match the adjacent cell's formula. -/
theorem c5_witness :
    terrainGetHeightAt hmEx (worldOfIdx 3) (worldOfIdx 2) = 2003 ∧
    terrainIsWithinBounds (1/3) 0 = true ∧
    terrainGetHeightAt hmEx (1/3) 0 =
      bilinearCell hmEx ⌊exactIof 0⌋ ⌊exactJof (1/3)⌋ (1/3) 0 ∧
    bilinearCell hmEx (40 - 1) ⌊exactJof (1/3)⌋ (1/3) 0 = terrainGetHeightAt hmEx (1/3) 0 ∧
    bilinearCell hmEx ⌊exactIof (1/3)⌋ (40 - 1) 0 (1/3) = terrainGetHeightAt hmEx 0 (1/3) := by
  have hb : terrainIsWithinBounds (1/3) 0 = true := by
    simp only [terrainIsWithinBounds, decide_eq_true_eq, abs_le]
    norm_num
  have hb2 : terrainIsWithinBounds 0 (1/3) = true := by
    simp only [terrainIsWithinBounds, decide_eq_true_eq, abs_le]
    norm_num
  have h := c5_sampler_inverse_of_generation hmEx
  refine ⟨(h.1 2 3).trans (by
    norm_num [hmEx, show ((2 : Fin 81) : ℕ) = 2 from rfl,
      show ((3 : Fin 81) : ℕ) = 3 from rfl]), hb, h.2.1 (1/3) 0 hb, ?_, ?_⟩
  · exact h.2.2.1 (1/3) 0 40 hb (by norm_num) (by norm_num)
      (by push_cast; norm_num [exactIof])
  · exact h.2.2.2 0 (1/3) 40 hb2 (by norm_num) (by norm_num)
      (by push_cast; norm_num [exactJof])

/-! ### C1 — the damage signal fires exactly once per `attacking` visit -/

/-- Single-frame characterization of `Player.update` in the `attacking`
state with no manual movement input: the one-shot signal is raised exactly
when the per-attack flag was still clear and the elapsed state time has
reached 50% of the attack animation; the per-attack flag latches; and while
the animation has not finished the machine stays in `attacking` with the
same state-entry time. -/
lemma playerUpdate_attacking_step (env : UpdateEnv) (now dt : ℚ) (mv : MoveInput)
    (s : PlayerState)
    (hf : mv.forward = 0) (hr : mv.right = 0)
    (hstate : s.attackState = AttackState.attacking) :
    (playerUpdate true env now dt mv s).shouldDealDamageThisFrame =
      (!s.damageDealtThisAttack &&
        decide (now - s.attackStateStartTime ≥ attackAnimationDuration * (1/2))) ∧
    (playerUpdate true env now dt mv s).damageDealtThisAttack =
      (s.damageDealtThisAttack ||
        decide (now - s.attackStateStartTime ≥ attackAnimationDuration * (1/2))) ∧
    (now - s.attackStateStartTime < attackAnimationDuration →
      (playerUpdate true env now dt mv s).attackState = AttackState.attacking ∧
      (playerUpdate true env now dt mv s).attackStateStartTime = s.attackStateStartTime) := by
  have hb : decide (mv.forward ≠ 0 ∨ mv.right ≠ 0) = false := by simp [hf, hr]
  set M := updateAttackStateMachine env.unitDir env.aliveCb now dt
      { s with shouldDealDamageThisFrame := false } with hMdef
  have hM : M.shouldDealDamageThisFrame =
        (!s.damageDealtThisAttack &&
          decide (now - s.attackStateStartTime ≥ attackAnimationDuration * (1/2))) ∧
      M.damageDealtThisAttack =
        (s.damageDealtThisAttack ||
          decide (now - s.attackStateStartTime ≥ attackAnimationDuration * (1/2))) ∧
      (M.attackState = AttackState.attacking ∨ M.attackState = AttackState.cooldown) ∧
      (now - s.attackStateStartTime < attackAnimationDuration →
        M.attackState = AttackState.attacking ∧
        M.attackStateStartTime = s.attackStateStartTime) := by
    rw [hMdef]
    by_cases h1 : now - s.attackStateStartTime ≥ attackAnimationDuration <;>
      by_cases h2 : s.damageDealtThisAttack = false ∧
        now - s.attackStateStartTime ≥ attackAnimationDuration * (1/2) <;>
      (unfold updateAttackStateMachine; simp only [hstate, h1, h2, if_true, if_false])
    · obtain ⟨hd0, hh⟩ := h2
      have hh2 : attackAnimationDuration * 2⁻¹ ≤ now - s.attackStateStartTime := by linarith
      refine ⟨?_, ?_, Or.inr ?_, ?_⟩
      · simp [setAttackState, hd0, hh, hh2]
      · simp [setAttackState, hd0, hh, hh2]
      · simp [setAttackState]
      · intro hlt; exact absurd h1 (not_le.mpr hlt)
    · refine ⟨?_, ?_, Or.inr ?_, ?_⟩
      · rcases Bool.eq_false_or_eq_true s.damageDealtThisAttack with hdd | hdd
        · simp [setAttackState, hdd]
        · have hh2 : ¬ attackAnimationDuration * 2⁻¹ ≤ now - s.attackStateStartTime :=
            fun hc => h2 ⟨hdd, by linarith⟩
          simp [setAttackState, hdd, hh2]
      · rcases Bool.eq_false_or_eq_true s.damageDealtThisAttack with hdd | hdd
        · simp [setAttackState, hdd]
        · have hh2 : ¬ attackAnimationDuration * 2⁻¹ ≤ now - s.attackStateStartTime :=
            fun hc => h2 ⟨hdd, by linarith⟩
          simp [setAttackState, hdd, hh2]
      · simp [setAttackState]
      · intro hlt; exact absurd h1 (not_le.mpr hlt)
    · obtain ⟨hd0, hh⟩ := h2
      have hh2 : attackAnimationDuration * 2⁻¹ ≤ now - s.attackStateStartTime := by linarith
      exact ⟨by simp [hd0, hh, hh2], by simp [hd0, hh, hh2], Or.inl (by simp), fun _ => ⟨by simp, by simp⟩⟩
    · refine ⟨?_, ?_, Or.inl (by simp), fun _ => ⟨by simp, by simp⟩⟩
      · rcases Bool.eq_false_or_eq_true s.damageDealtThisAttack with hdd | hdd
        · simp [hdd]
        · have hh2 : ¬ attackAnimationDuration * 2⁻¹ ≤ now - s.attackStateStartTime :=
            fun hc => h2 ⟨hdd, by linarith⟩
          simp [hdd, hh2]
      · rcases Bool.eq_false_or_eq_true s.damageDealtThisAttack with hdd | hdd
        · simp [hdd]
        · have hh2 : ¬ attackAnimationDuration * 2⁻¹ ≤ now - s.attackStateStartTime :=
            fun hc => h2 ⟨hdd, by linarith⟩
          simp [hdd, hh2]
  have hcm : ¬ (M.attackState = AttackState.idle ∨
      M.attackState = AttackState.movingToTarget) := by
    rcases hM.2.2.1 with h | h <;> simp [h]
  have hres : playerUpdate true env now dt mv s = applyPhysics env.terrain env.boxes dt M := by
    rw [playerUpdate_eq]
    simp only [hb, Bool.false_eq_true, false_and, ite_false, ← hMdef]
    rw [if_neg hcm]
  obtain ⟨p1, _, p3, p4, p5⟩ := applyPhysics_attack_fields env.terrain env.boxes dt M
  rw [hres, p1, p3, p4, p5]
  exact ⟨hM.1, hM.2.1, fun hlt => ⟨(hM.2.2.2 hlt).1, (hM.2.2.2 hlt).2⟩⟩

/-- Run characterization: starting from a state in `attacking` (entered at
`t0`, per-attack flag `b`), over any sequence of update frames with no
manual movement input that stays inside the attack-animation window (only
the last frame may reach the end), the one-shot signal of frame `i` is set
iff the flag started clear, frame `i` reached the 50% mark, and no earlier
frame had reached it. -/
lemma updateRun_attacking_signal (env : UpdateEnv) (t0 : ℚ) :
    ∀ (fs : List FrameIn) (s : PlayerState) (b : Bool),
      s.attackState = AttackState.attacking →
      s.attackStateStartTime = t0 →
      s.damageDealtThisAttack = b →
      (∀ f ∈ fs, f.mv.forward = 0 ∧ f.mv.right = 0) →
      (∀ i, i + 1 < fs.length → (fs.getD i dummyFrame).now < t0 + attackAnimationDuration) →
      ∀ i, i < fs.length →
        (((updateRun env s fs).getD i dummyPlayer).shouldDealDamageThisFrame = true ↔
          (b = false ∧
            (fs.getD i dummyFrame).now - t0 ≥ attackAnimationDuration * (1/2) ∧
            ∀ j, j < i → (fs.getD j dummyFrame).now - t0 < attackAnimationDuration * (1/2))) := by
  intro fs
  induction fs with
  | nil => intro s b _ _ _ _ _ i hi; simp at hi
  | cons f fs ih =>
    intro s b hstate hstart hdd hmv hwin i hi
    have hstep := playerUpdate_attacking_step env f.now f.dt f.mv s
      (hmv f (List.mem_cons_self f fs)).1 (hmv f (List.mem_cons_self f fs)).2 hstate
    match i with
    | 0 =>
      simp only [updateRun, List.getD_cons_zero]
      rw [hstep.1, hdd, hstart]
      simp [Bool.and_eq_true, Bool.not_eq_true', decide_eq_true_eq]
    | Nat.succ j =>
      have hj : j < fs.length := by
        simp only [List.length_cons] at hi
        omega
      have hlen : 0 + 1 < (f :: fs).length := by
        simp only [List.length_cons]
        omega
      have hfwin : f.now < t0 + attackAnimationDuration := by
        simpa using hwin 0 hlen
      have hkeep := hstep.2.2 (by rw [hstart]; linarith)
      have hdd1 : (playerUpdate true env f.now f.dt f.mv s).damageDealtThisAttack =
          (b || decide (f.now - t0 ≥ attackAnimationDuration * (1/2))) := by
        rw [hstep.2.1, hdd, hstart]
      have hres := ih (playerUpdate true env f.now f.dt f.mv s)
        (b || decide (f.now - t0 ≥ attackAnimationDuration * (1/2)))
        hkeep.1 (by rw [hkeep.2, hstart]) hdd1
        (fun f' hf' => hmv f' (List.mem_cons_of_mem f hf'))
        (fun i' hi' => by
          have := hwin (i' + 1) (by simpa using Nat.succ_lt_succ hi')
          simpa using this)
        j hj
      simp only [updateRun, List.getD_cons_succ]
      rw [hres]
      constructor
      · rintro ⟨hb', hge, hall⟩
        have hb0 : b = false := by
          rcases Bool.eq_false_or_eq_true b with hb | hb
          · rw [hb] at hb'; simp at hb'
          · exact hb
        have hfhalf : f.now - t0 < attackAnimationDuration * (1/2) := by
          rw [hb0] at hb'
          simp only [Bool.false_or] at hb'
          have := of_decide_eq_false hb'
          linarith [not_le.mp this]
        refine ⟨hb0, hge, ?_⟩
        intro k hk
        match k with
        | 0 => simpa using hfhalf
        | Nat.succ k' =>
          have := hall k' (Nat.lt_of_succ_lt_succ hk)
          simpa using this
      · rintro ⟨hb0, hge, hall⟩
        have hfhalf : f.now - t0 < attackAnimationDuration * (1/2) := by
          simpa using hall 0 (Nat.succ_pos j)
        refine ⟨?_, hge, ?_⟩
        · rw [hb0]
          simp only [Bool.false_or]
          exact decide_eq_false (by linarith [hfhalf])
        · intro k hk
          have := hall (k + 1) (Nat.succ_lt_succ hk)
          simpa using this

/-- C1: during a single visit to `attacking` (entered at `t0` with the
per-attack flag freshly cleared, as `setAttackState` guarantees on entry),
over any update frames with no manual movement input where only the last
frame may reach the end of the animation window, the one-shot damage signal
of frame `i` is raised **iff** frame `i` is the first frame whose elapsed
state time reaches 50% of the attack animation duration — so the signal is
raised at most once per visit, exactly at the first 50%-crossing frame,
regardless of the frame timing. -/
theorem c1_damage_signal_once_per_visit (env : UpdateEnv) (fs : List FrameIn)
    (s : PlayerState) (t0 : ℚ)
    (hstate : s.attackState = AttackState.attacking)
    (hstart : s.attackStateStartTime = t0)
    (hfresh : s.damageDealtThisAttack = false)
    (hmv : ∀ f ∈ fs, f.mv.forward = 0 ∧ f.mv.right = 0)
    (hvisit : ∀ i, i + 1 < fs.length →
      (fs.getD i dummyFrame).now < t0 + attackAnimationDuration) :
    ∀ i, i < fs.length →
      (((updateRun env s fs).getD i dummyPlayer).shouldDealDamageThisFrame = true ↔
        ((fs.getD i dummyFrame).now - t0 ≥ attackAnimationDuration * (1/2) ∧
          ∀ j, j < i → (fs.getD j dummyFrame).now - t0 < attackAnimationDuration * (1/2))) := by
  intro i hi
  have h := updateRun_attacking_signal env t0 fs s false hstate hstart hfresh hmv hvisit i hi
  simpa using h

/-- Witness for C1: frames at 0.3, 0.6 and 0.9 seconds into a fresh attack
visit; the signal fires exactly at the second frame (the first one past the
50% mark) and not at the third. -/
theorem c1_witness :
    ((updateRun envC2 sC1 fsC1).getD 1 dummyPlayer).shouldDealDamageThisFrame = true ∧
    ¬ ((updateRun envC2 sC1 fsC1).getD 2 dummyPlayer).shouldDealDamageThisFrame = true := by
  have hmv : ∀ f ∈ fsC1, f.mv.forward = 0 ∧ f.mv.right = 0 := by
    intro f hf
    simp only [fsC1, List.mem_cons, List.not_mem_nil, or_false] at hf
    rcases hf with rfl | rfl | rfl <;> exact ⟨rfl, rfl⟩
  have hvisit : ∀ i, i + 1 < fsC1.length →
      (fsC1.getD i dummyFrame).now < 0 + attackAnimationDuration := by
    intro i hi
    simp only [fsC1, List.length_cons, List.length_nil] at hi
    have hi2 : i < 2 := by omega
    interval_cases i <;> norm_num [fsC1, attackAnimationDuration]
  have h := c1_damage_signal_once_per_visit envC2 fsC1 sC1 0 rfl rfl rfl hmv hvisit
  constructor
  · refine (h 1 (by norm_num [fsC1])).mpr
      ⟨by norm_num [fsC1, attackAnimationDuration], ?_⟩
    intro j hj
    interval_cases j
    norm_num [fsC1, attackAnimationDuration]
  · intro hc
    obtain ⟨-, hall⟩ := (h 2 (by norm_num [fsC1])).mp hc
    have h1 := hall 1 (by norm_num)
    norm_num [fsC1, attackAnimationDuration] at h1
